import Mathlib

set_option linter.unusedVariables false

/-! Verification development for the dexter research agent. The tool layer
(src/dexter/tools.py), the linear control loop (src/dexter/agent.py) and the
state-graph control loop (src/dexter/agent_graph.py) are embedded shallowly;
the external effects (language-model backend, search network, credentials)
are supplied by oracle parameters so that every run is a total function of
the query and the oracle. -/

namespace Dexter

/-! ## Tool layer (src/dexter/tools.py) -/

/-- Result of one `search_web` call, mirroring the returned dict: either an
error payload or the provider response, optionally annotated with the
search-limit info string. -/
inductive SearchResult where
  | errorPayload (msg : String)
  | success (response : String) (limitInfo : Option String)
deriving Repr, DecidableEq

/-- Environment of one `search_web` invocation: the TAVILY_API_KEY value, and
the outcome the Tavily network call would produce if it were attempted. -/
structure SearchCall where
  apiKey : Option String
  net : Except String String

/-- From `_check_tavily_limit` (tools.py lines 26-41): decides whether another
search may run, together with the accompanying message. -/
def check_tavily_limit (count : Nat) (limit : Option Nat) : Bool × String :=
  match limit with
  | none => (true, "")
  | some l =>
    if count ≥ l then
      (false, "Límite de búsquedas alcanzado (" ++ toString count ++ "/" ++ toString l ++
        "). Configura TAVILY_MAX_SEARCHES_PER_SESSION para cambiar el límite.")
    else
      (true, "Búsquedas restantes: " ++ toString (l - count) ++ "/" ++ toString l)

/-- From `search_web` (tools.py lines 58-91): quota check, then credential
check, then the network call; the counter increments only after a successful
search. The triple returned is (result, new counter value, whether the
network call was performed). -/
def search_web (limit : Option Nat) (call : SearchCall) (count : Nat) :
    SearchResult × Nat × Bool :=
  let chk := check_tavily_limit count limit
  if chk.1 = false then
    (.errorPayload chk.2, count, false)
  else
    match call.apiKey with
    | none => (.errorPayload "TAVILY_API_KEY not found in environment variables", count, false)
    | some _ =>
      match call.net with
      | .error e => (.errorPayload ("Search failed: " ++ e), count, true)
      | .ok resp => (.success resp (if chk.2 = "" then none else some chk.2), count + 1, true)

/-- Evolution of the module-level counter `_tavily_search_count` across a
sequence of calls: the counter persists for the life of the process and is
only ever touched by `search_web` itself. -/
def search_fold (limit : Option Nat) (count : Nat) : List SearchCall → Nat
  | [] => count
  | c :: cs => search_fold limit (search_web limit c count).2.1 cs

/-- From `calculator` (tools.py line 102): the allowed character set. -/
def allowed_chars : List Char := "0123456789+-*/(). ".toList

/-- From `calculator` (tools.py line 103): the character filter applied
before any evaluation. -/
def calc_check (expression : String) : Bool :=
  expression.toList.all (fun c => c ∈ allowed_chars)

/-- The fixed rejection string produced when the filter fails. -/
def invalid_chars_msg : String :=
  "Error: Invalid characters in expression. Only numbers and basic operators (+, -, *, /, parentheses) are allowed."

/-- From `calculator` (tools.py lines 93-109), parameterized by the evaluator
standing for the Python builtin `eval` (external to the repository):
character filter first, then evaluation, with any evaluation failure rendered
as an error string. -/
def calculator (ev : String → Except String String) (expression : String) : String :=
  if calc_check expression = false then invalid_chars_msg
  else
    match ev expression with
    | .ok result => expression ++ " = " ++ result
    | .error e => "Error calculating \x27" ++ expression ++ "\x27: " ++ e

/-- Token of an arithmetic expression. -/
inductive Tok where
  | num (n : Nat)
  | plus
  | minus
  | star
  | lparen
  | rparen
deriving Repr, DecidableEq

/-- Numeric value of a run of digit characters. -/
def digitsVal (ds : List Char) : Nat :=
  ds.foldl (fun a c => a * 10 + (c.toNat - 48)) 0

/-- Fuel-indexed tokenizer for the arithmetic expressions the evaluator model
accepts; each step consumes at least one character, so any fuel beyond the
input length is enough. -/
def tokenizeF : Nat → List Char → Option (List Tok)
  | 0, _ => none
  | _ + 1, [] => some []
  | fuel + 1, c :: cs =>
    if c = ' ' then tokenizeF fuel cs
    else if c.isDigit then
      (tokenizeF fuel (cs.dropWhile Char.isDigit)).map
        (fun ts => .num (digitsVal (c :: cs.takeWhile Char.isDigit)) :: ts)
    else if c = '+' then (tokenizeF fuel cs).map (fun ts => .plus :: ts)
    else if c = '-' then (tokenizeF fuel cs).map (fun ts => .minus :: ts)
    else if c = '*' then (tokenizeF fuel cs).map (fun ts => .star :: ts)
    else if c = '(' then (tokenizeF fuel cs).map (fun ts => .lparen :: ts)
    else if c = ')' then (tokenizeF fuel cs).map (fun ts => .rparen :: ts)
    else none

/-- Tokenizer at adequate fuel. -/
def tokenize (cs : List Char) : Option (List Tok) :=
  tokenizeF (cs.length + 1) cs

mutual

/-- Additive layer of the expression grammar. -/
def parseE : Nat → List Tok → Option (Int × List Tok)
  | 0, _ => none
  | fuel + 1, ts =>
    match parseT fuel ts with
    | none => none
    | some (v, rest) => parseEsuffix fuel v rest

/-- Left-associated chain of + and - at the additive layer. -/
def parseEsuffix : Nat → Int → List Tok → Option (Int × List Tok)
  | 0, _, _ => none
  | fuel + 1, acc, ts =>
    match ts with
    | .plus :: rest =>
      match parseT fuel rest with
      | none => none
      | some (v, rest2) => parseEsuffix fuel (acc + v) rest2
    | .minus :: rest =>
      match parseT fuel rest with
      | none => none
      | some (v, rest2) => parseEsuffix fuel (acc - v) rest2
    | _ => some (acc, ts)

/-- Multiplicative layer of the expression grammar. -/
def parseT : Nat → List Tok → Option (Int × List Tok)
  | 0, _ => none
  | fuel + 1, ts =>
    match parseF fuel ts with
    | none => none
    | some (v, rest) => parseTsuffix fuel v rest

/-- Left-associated chain of * at the multiplicative layer. -/
def parseTsuffix : Nat → Int → List Tok → Option (Int × List Tok)
  | 0, _, _ => none
  | fuel + 1, acc, ts =>
    match ts with
    | .star :: rest =>
      match parseF fuel rest with
      | none => none
      | some (v, rest2) => parseTsuffix fuel (acc * v) rest2
    | _ => some (acc, ts)

/-- Atom layer: numeric literal or parenthesized expression. -/
def parseF : Nat → List Tok → Option (Int × List Tok)
  | 0, _ => none
  | fuel + 1, ts =>
    match ts with
    | .num n :: rest => some ((n : Int), rest)
    | .lparen :: rest =>
      match parseE fuel rest with
      | none => none
      | some (v, rest2) =>
        match rest2 with
        | .rparen :: rest3 => some (v, rest3)
        | _ => none
    | _ => none

end

/-- Modelled from the spec: the arithmetic evaluator behind `calculator` is
the Python builtin `eval`, which is external to the repository; the spec
restricts its inputs to digits, dot, whitespace and the operators. This model
evaluates expressions over non-negative integer literals with + - * and
parentheses, rendering the integer result the way Python prints it, and
reports every other expression (including / and .) as an evaluation error. -/
def pythonEval (s : String) : Except String String :=
  match tokenize s.toList with
  | none => .error "invalid syntax"
  | some ts =>
    match parseE (3 * ts.length + 3) ts with
    | some (v, []) => .ok (toString v)
    | _ => .error "invalid syntax"

example : pythonEval "2+2" = .ok "4" := rfl

example : calculator pythonEval "2+2" = "2+2 = 4" := by decide

example : calculator pythonEval "import os" = invalid_chars_msg := by decide

/-! ## Data model (spec section 3; the Task/TaskList schema lives in
dexter/schemas.py, which is not among the sources) -/

/-- Modelled from the spec: the Task schema of dexter/schemas.py (absent from
the sources): integer id, free-text description, done flag. -/
structure Task where
  id : Nat
  description : String
  done : Bool
deriving Repr, DecidableEq

/-- A tool invocation request (name and input) selected by the model. -/
structure ToolCall where
  name : String
  input : String
deriving Repr, DecidableEq

/-- One tool invocation record: name, input, output. -/
structure ToolRec where
  name : String
  input : String
  output : String
deriving Repr, DecidableEq

/-- Observable events of a run: the gateway calls, the tool invocations, the
task-started log lines, the done-flag updates, and the final answer call. -/
inductive Ev where
  | planCall
  | execStart (id : Nat)
  | decideCall (task ctx : String)
  | toolCall (rec : ToolRec)
  | validCall (task results : String)
  | doneSet (id : Nat)
  | answerCall (query results : String)
deriving Repr, DecidableEq

/-- Response oracle standing for the language-model backend and the tool
outcomes; `none` models a raised exception / gateway failure. Tool responses
are plain values because every tool catches its own failures and returns an
error payload as a value. -/
structure Oracle where
  planResp : Option (List String)
  decide_action : String → String → List ToolRec → Option (Option ToolCall)
  toolResp : String → String → String
  validResp : String → String → Option Bool
  answerResp : String → String → Option String

/-- Sequential id assignment from a starting index. -/
def mkPlanFrom (i : Nat) : List String → List Task
  | [] => []
  | d :: ds => ⟨i, d, false⟩ :: mkPlanFrom (i + 1) ds

/-- Modelled from the spec: the TaskList coercion of the planner gateway
(dexter/schemas.py, absent from the sources) yields tasks with sequential ids
starting at 1, each with done=false. -/
def mkPlan (ds : List String) : List Task := mkPlanFrom 1 ds

/-- From `Agent.plan_tasks` (agent.py lines 90-102) and `planner_node`
(agent_graph.py lines 83-111), whose logic is identical: the gateway plan on
success, one synthetic task holding the verbatim query on failure. -/
def plan_tasks (o : Oracle) (query : String) : List Task :=
  match o.planResp with
  | some ds => mkPlan ds
  | none => [⟨1, query, false⟩]

/-- Last-n window of a list, as the Python slice l[-n:]. -/
def lastN (n : Nat) (l : List String) : List String := l.drop (l.length - n)

/-- From agent.py line 168 and agent_graph.py line 138: the execution context
is the last 5 session-log entries joined by newlines, or a fixed placeholder
when the log is empty. -/
def contextFor (outputs : List String) : String :=
  if outputs.isEmpty then "No previous context."
  else String.intercalate "\n" (lastN 5 outputs)

/-- From agent.py line 149 / agent_graph.py line 156: the rendering of one
tool invocation record appended to the session log. -/
def recToString (r : ToolRec) : String :=
  "Tool: " ++ r.name ++ "\nInput: " ++ r.input ++ "\nOutput: " ++ r.output

/-- From agent.py line 184 / agent_graph.py line 224: the results text handed
to the Answer Synthesizer — the entire log joined, or the fixed placeholder
when nothing was collected. -/
def renderResults (outputs : List String) : String :=
  if outputs.isEmpty then "No data was collected."
  else String.intercalate "\n\n" outputs

/-- Modelled from the spec: the LangChain AgentExecutor sub-loop (external to
the repository; both agent.py line 80 and agent_graph.py line 69 construct it
with max_iterations = max_steps_per_task over the shared tool set). Each
iteration asks the gateway for at most one tool call; a tool call runs the
tool and accumulates the record, no call stops the loop, and the iteration
ceiling stops it as well. A gateway failure (`none`) raises out of invoke:
the accumulated records are lost, while the calls already performed remain as
events. -/
def execSubLoopEv (o : Oracle) (desc ctx : String) :
    Nat → List ToolRec → List Ev × Option (List ToolRec)
  | 0, acc => ([], some acc)
  | fuel + 1, acc =>
    match o.decide_action desc ctx acc with
    | none => ([.decideCall desc ctx], none)
    | some none => ([.decideCall desc ctx], some acc)
    | some (some tc) =>
      let r : ToolRec := ⟨tc.name, tc.input, o.toolResp tc.name tc.input⟩
      let rest := execSubLoopEv o desc ctx fuel (acc ++ [r])
      (.decideCall desc ctx :: .toolCall r :: rest.1, rest.2)

/-- From `Agent.validate_task` (agent.py lines 106-116): the gateway verdict
on success, and False when the gateway call raises. -/
def validate_task (o : Oracle) (desc results : String) : Bool :=
  match o.validResp desc results with
  | some b => b
  | none => false

/-- Body of the for-loop of `Agent.run` (agent.py lines 133-159) for one
task: skip when already done; otherwise execute through the sub-loop, append
the new records to the session log and validate, where an exception from the
executor marks the task done without validating. Returns the updated session
log and the events of this iteration. -/
def runTask (o : Oracle) (m : Nat) (outputs : List String) (t : Task) :
    List String × List Ev :=
  if t.done then (outputs, [])
  else
    match (execSubLoopEv o t.description (contextFor outputs) m []).2 with
    | none =>
      (outputs,
        .execStart t.id :: (execSubLoopEv o t.description (contextFor outputs) m []).1 ++
          [.doneSet t.id])
    | some recs =>
      (outputs ++ recs.map recToString,
        .execStart t.id :: (execSubLoopEv o t.description (contextFor outputs) m []).1 ++
          (if validate_task o t.description
              (String.intercalate "\n" (outputs ++ recs.map recToString)) then
            [.validCall t.description (String.intercalate "\n" (outputs ++ recs.map recToString)),
              .doneSet t.id]
          else
            [.validCall t.description
              (String.intercalate "\n" (outputs ++ recs.map recToString))]))

/-- The for-loop of `Agent.run` over the whole task list. -/
def agentRunAux (o : Oracle) (m : Nat) (outputs : List String) :
    List Task → List String × List Ev
  | [] => (outputs, [])
  | t :: ts =>
    ((agentRunAux o m (runTask o m outputs t).1 ts).1,
      (runTask o m outputs t).2 ++ (agentRunAux o m (runTask o m outputs t).1 ts).2)

/-- From `Agent._generate_answer` (agent.py lines 182-194) and
`answerer_node` (agent_graph.py lines 219-247), whose logic is identical: the
whole session log is rendered and handed to the gateway; a failure yields the
fixed fallback string. -/
def generate_answer (o : Oracle) (query : String) (outputs : List String) :
    String × List Ev :=
  match o.answerResp query (renderResults outputs) with
  | some a => (a, [.answerCall query (renderResults outputs)])
  | none =>
    ("Unable to generate answer due to an error.", [.answerCall query (renderResults outputs)])

/-- Result of a whole run: the returned answer and the event trace. -/
structure RunResult where
  answer : String
  events : List Ev
deriving Repr, DecidableEq

/-- From `Agent.run` (agent.py lines 119-164). The `max_steps` configuration
(agent.py line 23) is stored by the constructor but never consulted on any
code path, so it is an unused parameter here as well. -/
def agentRun (max_steps m : Nat) (o : Oracle) (query : String) : RunResult :=
  if (plan_tasks o query).isEmpty then
    ⟨(generate_answer o query []).1, .planCall :: (generate_answer o query []).2⟩
  else
    ⟨(generate_answer o query (agentRunAux o m [] (plan_tasks o query)).1).1,
      .planCall :: ((agentRunAux o m [] (plan_tasks o query)).2 ++
        (generate_answer o query (agentRunAux o m [] (plan_tasks o query)).1).2)⟩

/-- The state threaded through the LangGraph nodes (`AgentGraphState`,
agent_graph.py lines 32-39), restricted to the fields the control flow reads:
the planned tasks, the current index and the session log. The query is passed
separately and `current_task_result` is written but never read. -/
structure GState where
  tasks : List Task
  current_task_idx : Nat
  session_outputs : List String
deriving Repr, DecidableEq

/-- Mark the task at an index done, as the validator's in-place mutation of
the current Task object. -/
def setDone (l : List Task) (i : Nat) : List Task :=
  match l[i]? with
  | some t => l.set i ⟨t.id, t.description, true⟩
  | none => l

/-- From `executor_node` (agent_graph.py lines 117-169): out of range returns
the state unchanged; an already-done task advances the index without
executing; otherwise the sub-loop runs on the last-5 window and its records
are appended, an executor exception leaving log and index unchanged (the
error goes to current_task_result, which nothing reads). -/
def executor_node (o : Oracle) (m : Nat) (st : GState) : GState × List Ev :=
  match st.tasks[st.current_task_idx]? with
  | none => (st, [])
  | some t =>
    if t.done then ({ st with current_task_idx := st.current_task_idx + 1 }, [])
    else
      match (execSubLoopEv o t.description (contextFor st.session_outputs) m []).2 with
      | none =>
        (st, .execStart t.id ::
          (execSubLoopEv o t.description (contextFor st.session_outputs) m []).1)
      | some recs =>
        ({ st with session_outputs := st.session_outputs ++ recs.map recToString },
          .execStart t.id ::
            (execSubLoopEv o t.description (contextFor st.session_outputs) m []).1)

/-- From `validator_node` (agent_graph.py lines 176-212): out of range
returns the state unchanged; otherwise the gateway verdict marks the current
task done — also on gateway failure, to avoid infinite loops — and the index
always advances. -/
def validator_node (o : Oracle) (st : GState) : GState × List Ev :=
  match st.tasks[st.current_task_idx]? with
  | none => (st, [])
  | some t =>
    match o.validResp t.description (String.intercalate "\n" st.session_outputs) with
    | some true =>
      ({ st with tasks := setDone st.tasks st.current_task_idx,
                 current_task_idx := st.current_task_idx + 1 },
        [.validCall t.description (String.intercalate "\n" st.session_outputs),
          .doneSet t.id])
    | some false =>
      ({ st with current_task_idx := st.current_task_idx + 1 },
        [.validCall t.description (String.intercalate "\n" st.session_outputs)])
    | none =>
      ({ st with tasks := setDone st.tasks st.current_task_idx,
                 current_task_idx := st.current_task_idx + 1 },
        [.validCall t.description (String.intercalate "\n" st.session_outputs),
          .doneSet t.id])

lemma executor_node_tasks (o : Oracle) (m : Nat) (st : GState) :
    (executor_node o m st).1.tasks = st.tasks := by
  unfold executor_node
  split
  · rfl
  · split
    · rfl
    · split <;> rfl

lemma executor_node_idx (o : Oracle) (m : Nat) (st : GState) :
    st.current_task_idx ≤ (executor_node o m st).1.current_task_idx ∧
    (executor_node o m st).1.current_task_idx ≤ st.current_task_idx + 1 := by
  unfold executor_node
  split
  · simp
  · split
    · simp
    · split <;> simp

lemma setDone_length (l : List Task) (i : Nat) : (setDone l i).length = l.length := by
  unfold setDone
  split <;> simp

lemma validator_node_tasks_length (o : Oracle) (st : GState) :
    (validator_node o st).1.tasks.length = st.tasks.length := by
  unfold validator_node
  split
  · rfl
  · split <;> simp [setDone_length]

lemma validator_node_idx (o : Oracle) (st : GState) :
    (validator_node o st).1.current_task_idx = st.current_task_idx + 1 ∨
    ((validator_node o st).1.current_task_idx = st.current_task_idx ∧
      st.tasks.length ≤ st.current_task_idx) := by
  unfold validator_node
  split
  · rename_i h
    right
    exact ⟨rfl, List.getElem?_eq_none_iff.mp h⟩
  · split <;> simp

/-- The compiled graph's cycle (agent_graph.py lines 278-317): executor, then
always the validator, then route back to the executor while tasks remain,
otherwise onward to the answerer. Each cycle either ends past the task list
or strictly advances the index, which bounds the recursion. -/
def graphLoop (o : Oracle) (m : Nat) (st : GState) : GState × List Ev :=
  if h : (validator_node o (executor_node o m st).1).1.current_task_idx <
      (validator_node o (executor_node o m st).1).1.tasks.length then
    ((graphLoop o m (validator_node o (executor_node o m st).1).1).1,
      (executor_node o m st).2 ++ (validator_node o (executor_node o m st).1).2 ++
        (graphLoop o m (validator_node o (executor_node o m st).1).1).2)
  else
    ((validator_node o (executor_node o m st).1).1,
      (executor_node o m st).2 ++ (validator_node o (executor_node o m st).1).2)
termination_by st.tasks.length - st.current_task_idx
decreasing_by
  have h1 := executor_node_idx o m st
  have h2 := executor_node_tasks o m st
  have h3 := validator_node_idx o (executor_node o m st).1
  have h4 := validator_node_tasks_length o (executor_node o m st).1
  have h5 : (executor_node o m st).1.tasks.length = st.tasks.length := by rw [h2]
  omega

/-- From `AgentGraph.run` (agent_graph.py lines 323-342) together with the
conditional edges: planner, then the direct answer on an empty plan, else the
executor/validator cycle followed by the answerer. `max_steps`
(agent_graph.py line 49) is stored by the constructor but never consulted. -/
def graphRun (max_steps m : Nat) (o : Oracle) (query : String) : RunResult :=
  if (plan_tasks o query).isEmpty then
    ⟨(generate_answer o query []).1, .planCall :: (generate_answer o query []).2⟩
  else
    ⟨(generate_answer o query
        (graphLoop o m ⟨plan_tasks o query, 0, []⟩).1.session_outputs).1,
      .planCall :: ((graphLoop o m ⟨plan_tasks o query, 0, []⟩).2 ++
        (generate_answer o query
          (graphLoop o m ⟨plan_tasks o query, 0, []⟩).1.session_outputs).2)⟩

/-- Tool invocations of a trace. -/
def toolEvents (evs : List Ev) : List ToolRec :=
  evs.filterMap fun e => match e with | .toolCall r => some r | _ => none

/-- Done-flag updates of a trace. -/
def doneSets (evs : List Ev) : List Nat :=
  evs.filterMap fun e => match e with | .doneSet i => some i | _ => none

/-- Task-execution starts of a trace. -/
def execStarts (evs : List Ev) : List Nat :=
  evs.filterMap fun e => match e with | .execStart i => some i | _ => none

/-- Whether an event is a gateway or tool call (log-only events excluded). -/
def isCall : Ev → Bool
  | .execStart _ => false
  | .doneSet _ => false
  | _ => true

/-- Number of gateway and tool calls in a trace. -/
def callCount (evs : List Ev) : Nat := (evs.filter isCall).length

/-! ## Structural description of the graph cycle, used to reason about
`graphLoop` -/

/-- One executor-plus-validator cycle of the graph on a not-yet-done task,
expressed over the session log alone. -/
def graphTask (o : Oracle) (m : Nat) (outputs : List String) (t : Task) :
    List String × List Ev :=
  match (execSubLoopEv o t.description (contextFor outputs) m []).2 with
  | none =>
    (outputs,
      .execStart t.id :: (execSubLoopEv o t.description (contextFor outputs) m []).1 ++
        (match o.validResp t.description (String.intercalate "\n" outputs) with
         | some true =>
           [.validCall t.description (String.intercalate "\n" outputs), .doneSet t.id]
         | some false => [.validCall t.description (String.intercalate "\n" outputs)]
         | none =>
           [.validCall t.description (String.intercalate "\n" outputs), .doneSet t.id]))
  | some recs =>
    (outputs ++ recs.map recToString,
      .execStart t.id :: (execSubLoopEv o t.description (contextFor outputs) m []).1 ++
        (match o.validResp t.description
            (String.intercalate "\n" (outputs ++ recs.map recToString)) with
         | some true =>
           [.validCall t.description (String.intercalate "\n" (outputs ++ recs.map recToString)),
             .doneSet t.id]
         | some false =>
           [.validCall t.description (String.intercalate "\n" (outputs ++ recs.map recToString))]
         | none =>
           [.validCall t.description (String.intercalate "\n" (outputs ++ recs.map recToString)),
             .doneSet t.id]))

/-- The graph cycle iterated over a list of not-yet-done tasks. -/
def graphSeq (o : Oracle) (m : Nat) (outputs : List String) :
    List Task → List String × List Ev
  | [] => (outputs, [])
  | t :: ts =>
    ((graphSeq o m (graphTask o m outputs t).1 ts).1,
      (graphTask o m outputs t).2 ++ (graphSeq o m (graphTask o m outputs t).1 ts).2)

lemma executor_node_oob (o : Oracle) (m : Nat) (st : GState)
    (h : st.tasks.length ≤ st.current_task_idx) : executor_node o m st = (st, []) := by
  unfold executor_node
  rw [List.getElem?_eq_none h]

lemma validator_node_oob (o : Oracle) (st : GState)
    (h : st.tasks.length ≤ st.current_task_idx) : validator_node o st = (st, []) := by
  unfold validator_node
  rw [List.getElem?_eq_none h]

lemma graphLoop_terminal (o : Oracle) (m : Nat) (st : GState)
    (h : st.tasks.length ≤ st.current_task_idx) : graphLoop o m st = (st, []) := by
  rw [graphLoop]
  rw [executor_node_oob o m st h, validator_node_oob o st h]
  simp [Nat.not_lt.mpr h]

lemma drop_set_succ (l : List Task) (i : Nat) (x : Task) :
    (l.set i x).drop (i + 1) = l.drop (i + 1) := by
  induction l generalizing i with
  | nil => simp
  | cons a as ih =>
    cases i with
    | zero => simp
    | succ j => simpa using ih j

lemma drop_setDone (l : List Task) (i : Nat) :
    (setDone l i).drop (i + 1) = l.drop (i + 1) := by
  unfold setDone
  split
  · exact drop_set_succ ..
  · rfl

lemma step_core (o : Oracle) (m : Nat) (st : GState) (t : Task)
    (ht : st.tasks[st.current_task_idx]? = some t) (hd : t.done = false) :
    (validator_node o (executor_node o m st).1).1.session_outputs =
      (graphTask o m st.session_outputs t).1 ∧
    (validator_node o (executor_node o m st).1).1.current_task_idx =
      st.current_task_idx + 1 ∧
    (executor_node o m st).2 ++ (validator_node o (executor_node o m st).1).2 =
      (graphTask o m st.session_outputs t).2 ∧
    (validator_node o (executor_node o m st).1).1.tasks.drop (st.current_task_idx + 1) =
      st.tasks.drop (st.current_task_idx + 1) ∧
    (validator_node o (executor_node o m st).1).1.tasks.length = st.tasks.length := by
  rcases hsub : (execSubLoopEv o t.description (contextFor st.session_outputs) m []).2 with _ | recs
  · have hexec : executor_node o m st =
        (st, .execStart t.id ::
          (execSubLoopEv o t.description (contextFor st.session_outputs) m []).1) := by
      unfold executor_node
      rw [ht]
      simp [hd, hsub]
    rw [hexec]
    unfold validator_node graphTask
    rw [ht, hsub]
    rcases hv : o.validResp t.description (String.intercalate "\n" st.session_outputs) with _ | b
    · simp [hv, drop_setDone, setDone_length]
    · cases b <;> simp [hv, drop_setDone, setDone_length]
  · have hexec : executor_node o m st =
        ({ st with session_outputs := st.session_outputs ++ recs.map recToString },
          .execStart t.id ::
            (execSubLoopEv o t.description (contextFor st.session_outputs) m []).1) := by
      unfold executor_node
      rw [ht]
      simp [hd, hsub]
    rw [hexec]
    unfold validator_node graphTask
    rw [hsub]
    simp only []
    rw [ht]
    rcases hv : o.validResp t.description
        (String.intercalate "\n" (st.session_outputs ++ recs.map recToString)) with _ | b
    · simp [hv, drop_setDone, setDone_length]
    · cases b <;> simp [hv, drop_setDone, setDone_length]

lemma graphLoop_eq_graphSeq (o : Oracle) (m : Nat) :
    ∀ (n : Nat) (st : GState), st.tasks.length - st.current_task_idx ≤ n →
    (∀ t ∈ st.tasks.drop st.current_task_idx, t.done = false) →
    (graphLoop o m st).1.session_outputs =
      (graphSeq o m st.session_outputs (st.tasks.drop st.current_task_idx)).1 ∧
    (graphLoop o m st).2 =
      (graphSeq o m st.session_outputs (st.tasks.drop st.current_task_idx)).2 := by
  intro n
  induction n with
  | zero =>
    intro st hn hinv
    have hle : st.tasks.length ≤ st.current_task_idx := by omega
    rw [graphLoop_terminal o m st hle, List.drop_eq_nil_of_le hle]
    simp [graphSeq]
  | succ n ih =>
    intro st hn hinv
    by_cases hlt : st.current_task_idx < st.tasks.length
    · have ht : st.tasks[st.current_task_idx]? = some st.tasks[st.current_task_idx] :=
        List.getElem?_eq_getElem hlt
      have hdrop : st.tasks.drop st.current_task_idx =
          st.tasks[st.current_task_idx] :: st.tasks.drop (st.current_task_idx + 1) :=
        List.drop_eq_getElem_cons hlt
      have hd : st.tasks[st.current_task_idx].done = false :=
        hinv _ (by rw [hdrop]; exact List.mem_cons_self _ _)
      obtain ⟨h1, h2, h3, h4, h5⟩ := step_core o m st _ ht hd
      rw [graphLoop]
      by_cases hcont : (validator_node o (executor_node o m st).1).1.current_task_idx <
          (validator_node o (executor_node o m st).1).1.tasks.length
      · rw [dif_pos hcont]
        have hrec := ih (validator_node o (executor_node o m st).1).1
          (by omega)
          (by
            rw [h2, h4]
            intro u hu
            exact hinv u (by rw [hdrop]; exact List.mem_cons_of_mem _ hu))
        rw [h2, h4] at hrec
        rw [hdrop]
        constructor
        · rw [hrec.1, h1]
          rfl
        · show (executor_node o m st).2 ++ (validator_node o (executor_node o m st).1).2 ++
            (graphLoop o m (validator_node o (executor_node o m st).1).1).2 = _
          rw [h3, hrec.2, h1]
          simp [graphSeq]
      · rw [dif_neg hcont]
        have hend : st.tasks.length ≤ st.current_task_idx + 1 := by omega
        have hnil : st.tasks.drop (st.current_task_idx + 1) = [] :=
          List.drop_eq_nil_of_le hend
        rw [hdrop, hnil]
        constructor
        · rw [h1]
          simp [graphSeq]
        · show (executor_node o m st).2 ++ (validator_node o (executor_node o m st).1).2 = _
          rw [h3]
          simp [graphSeq]
    · have hle : st.tasks.length ≤ st.current_task_idx := by omega
      rw [graphLoop_terminal o m st hle, List.drop_eq_nil_of_le hle]
      simp [graphSeq]

lemma mkPlanFrom_done : ∀ (ds : List String) (i : Nat), ∀ t ∈ mkPlanFrom i ds, t.done = false := by
  intro ds
  induction ds with
  | nil => intro i t ht; simp [mkPlanFrom] at ht
  | cons d rest ih =>
    intro i t ht
    cases ht with
    | head => rfl
    | tail _ h => exact ih (i + 1) t h

lemma mkPlanFrom_map_id : ∀ (ds : List String) (i : Nat),
    (mkPlanFrom i ds).map Task.id = List.range' i ds.length := by
  intro ds
  induction ds with
  | nil => intro i; simp [mkPlanFrom]
  | cons d rest ih => intro i; simp [mkPlanFrom, List.range', ih]

lemma mkPlanFrom_map_desc : ∀ (ds : List String) (i : Nat),
    (mkPlanFrom i ds).map Task.description = ds := by
  intro ds
  induction ds with
  | nil => intro i; simp [mkPlanFrom]
  | cons d rest ih => intro i; simp [mkPlanFrom, ih]

lemma mkPlanFrom_length (ds : List String) (i : Nat) :
    (mkPlanFrom i ds).length = ds.length := by
  have := mkPlanFrom_map_desc ds i
  calc (mkPlanFrom i ds).length = ((mkPlanFrom i ds).map Task.description).length := by simp
  _ = ds.length := by rw [this]

lemma plan_tasks_done (o : Oracle) (q : String) : ∀ t ∈ plan_tasks o q, t.done = false := by
  unfold plan_tasks
  rcases o.planResp with _ | ds
  · intro t ht
    cases ht with
    | head => rfl
    | tail _ h => exact absurd h (List.not_mem_nil t)
  · exact mkPlanFrom_done ds 1

lemma graphRun_eq_seq (maxS m : Nat) (o : Oracle) (q : String) :
    graphRun maxS m o q =
      ⟨(generate_answer o q (graphSeq o m [] (plan_tasks o q)).1).1,
        .planCall :: ((graphSeq o m [] (plan_tasks o q)).2 ++
          (generate_answer o q (graphSeq o m [] (plan_tasks o q)).1).2)⟩ := by
  unfold graphRun
  by_cases he : (plan_tasks o q).isEmpty
  · rw [if_pos he]
    have hnil : plan_tasks o q = [] := List.isEmpty_iff.mp he
    rw [hnil]
    simp [graphSeq]
  · rw [if_neg he]
    have h := graphLoop_eq_graphSeq o m (plan_tasks o q).length ⟨plan_tasks o q, 0, []⟩
      (by simp) (by simpa using plan_tasks_done o q)
    simp only [List.drop_zero] at h
    rw [h.1, h.2]

/-! ## Trace filter algebra -/

lemma toolEvents_append (a b : List Ev) : toolEvents (a ++ b) = toolEvents a ++ toolEvents b :=
  List.filterMap_append ..

lemma doneSets_append (a b : List Ev) : doneSets (a ++ b) = doneSets a ++ doneSets b :=
  List.filterMap_append ..

lemma execStarts_append (a b : List Ev) : execStarts (a ++ b) = execStarts a ++ execStarts b :=
  List.filterMap_append ..

lemma callCount_append (a b : List Ev) : callCount (a ++ b) = callCount a + callCount b := by
  unfold callCount
  rw [List.filter_append, List.length_append]

/-! ## Sub-loop facts -/

lemma subloop_events (o : Oracle) (d c : String) : ∀ (fuel : Nat) (acc : List ToolRec),
    execStarts (execSubLoopEv o d c fuel acc).1 = [] ∧
    doneSets (execSubLoopEv o d c fuel acc).1 = [] ∧
    (∀ d2 c2, Ev.decideCall d2 c2 ∈ (execSubLoopEv o d c fuel acc).1 → d2 = d ∧ c2 = c) ∧
    callCount (execSubLoopEv o d c fuel acc).1 ≤ 2 * fuel := by
  intro fuel
  induction fuel with
  | zero =>
    intro acc
    simp [execSubLoopEv, execStarts, doneSets, callCount]
  | succ n ih =>
    intro acc
    unfold execSubLoopEv
    rcases hdec : o.decide_action d c acc with _ | tc
    · simp [execStarts, doneSets, callCount, isCall]
      omega
    · rcases tc with _ | tc
      · simp [execStarts, doneSets, callCount, isCall]
        omega
      · have h := ih (acc ++ [⟨tc.name, tc.input, o.toolResp tc.name tc.input⟩])
        simp only [execStarts, doneSets, callCount, List.filterMap_cons, List.filter_cons] at h ⊢
        refine ⟨h.1, h.2.1, ?_, ?_⟩
        · intro d2 c2 hmem
          simp only [List.mem_cons] at hmem
          rcases hmem with heq | heq | hm
          · simp only [Ev.decideCall.injEq] at heq
            exact heq
          · simp at heq
          · exact h.2.2.1 d2 c2 hm
        · simp [isCall] at h ⊢
          omega

lemma subloop_ok (o : Oracle) (d c : String)
    (hdec : ∀ x y z, o.decide_action x y z ≠ none) :
    ∀ (fuel : Nat) (acc : List ToolRec), ∃ recs, (execSubLoopEv o d c fuel acc).2 = some recs := by
  intro fuel
  induction fuel with
  | zero => intro acc; exact ⟨acc, rfl⟩
  | succ n ih =>
    intro acc
    unfold execSubLoopEv
    rcases hdec2 : o.decide_action d c acc with _ | tc
    · exact absurd hdec2 (hdec d c acc)
    · rcases tc with _ | tc
      · exact ⟨acc, rfl⟩
      · exact ih (acc ++ [⟨tc.name, tc.input, o.toolResp tc.name tc.input⟩])

/-! ## The linear loop against the graph cycle, task by task -/

lemma runTask_fst (o : Oracle) (m : Nat) (outputs : List String) (t : Task)
    (hd : t.done = false) :
    (runTask o m outputs t).1 = (graphTask o m outputs t).1 := by
  unfold runTask graphTask
  simp only [hd, Bool.false_eq_true, if_false]
  rcases hsub : (execSubLoopEv o t.description (contextFor outputs) m []).2 with _ | recs <;>
    simp [hsub]

lemma toolEvents_nil : toolEvents ([] : List Ev) = [] := rfl

lemma toolEvents_execStart (i : Nat) (l : List Ev) :
    toolEvents (.execStart i :: l) = toolEvents l := rfl

lemma toolEvents_validCall (a b : String) (l : List Ev) :
    toolEvents (.validCall a b :: l) = toolEvents l := rfl

lemma toolEvents_doneSet (i : Nat) (l : List Ev) :
    toolEvents (.doneSet i :: l) = toolEvents l := rfl

lemma execStarts_nil : execStarts ([] : List Ev) = [] := rfl

lemma execStarts_execStart (i : Nat) (l : List Ev) :
    execStarts (.execStart i :: l) = i :: execStarts l := rfl

lemma execStarts_validCall (a b : String) (l : List Ev) :
    execStarts (.validCall a b :: l) = execStarts l := rfl

lemma execStarts_doneSet (i : Nat) (l : List Ev) :
    execStarts (.doneSet i :: l) = execStarts l := rfl

lemma execStarts_answerCall (a b : String) (l : List Ev) :
    execStarts (.answerCall a b :: l) = execStarts l := rfl

lemma execStarts_planCall (l : List Ev) : execStarts (.planCall :: l) = execStarts l := rfl

lemma toolEvents_planCall (l : List Ev) : toolEvents (.planCall :: l) = toolEvents l := rfl

lemma toolEvents_answerCall (a b : String) (l : List Ev) :
    toolEvents (.answerCall a b :: l) = toolEvents l := rfl

lemma doneSets_nil : doneSets ([] : List Ev) = [] := rfl

lemma doneSets_doneSet (i : Nat) (l : List Ev) :
    doneSets (.doneSet i :: l) = i :: doneSets l := rfl

lemma runTask_marks (o : Oracle) (m : Nat) (outputs : List String) (t : Task)
    (hd : t.done = false) :
    toolEvents (runTask o m outputs t).2 = toolEvents (graphTask o m outputs t).2 ∧
    execStarts (runTask o m outputs t).2 = [t.id] ∧
    execStarts (graphTask o m outputs t).2 = [t.id] := by
  obtain ⟨hsE, hsD, hsDC, hsC⟩ := subloop_events o t.description (contextFor outputs) m []
  unfold runTask graphTask
  simp only [hd, Bool.false_eq_true, if_false]
  rcases hsub : (execSubLoopEv o t.description (contextFor outputs) m []).2 with _ | recs
  · rcases hv : o.validResp t.description (String.intercalate "\n" outputs) with _ | b
    · simp [hv, toolEvents_execStart, toolEvents_append, toolEvents_validCall,
        toolEvents_doneSet, toolEvents_nil, execStarts_execStart, execStarts_append,
        execStarts_validCall, execStarts_doneSet, execStarts_nil, hsE]
    · cases b <;>
        simp [hv, toolEvents_execStart, toolEvents_append, toolEvents_validCall,
          toolEvents_doneSet, toolEvents_nil, execStarts_execStart, execStarts_append,
          execStarts_validCall, execStarts_doneSet, execStarts_nil, hsE]
  · rcases hv : o.validResp t.description
        (String.intercalate "\n" (outputs ++ recs.map recToString)) with _ | b
    · simp [validate_task, hv, toolEvents_execStart, toolEvents_append, toolEvents_validCall,
        toolEvents_doneSet, toolEvents_nil, execStarts_execStart, execStarts_append,
        execStarts_validCall, execStarts_doneSet, execStarts_nil, hsE]
    · cases b <;>
        simp [validate_task, hv, toolEvents_execStart, toolEvents_append, toolEvents_validCall,
          toolEvents_doneSet, toolEvents_nil, execStarts_execStart, execStarts_append,
          execStarts_validCall, execStarts_doneSet, execStarts_nil, hsE]

lemma runTask_eq_graphTask (o : Oracle) (m : Nat) (outputs : List String) (t : Task)
    (hd : t.done = false)
    (hdec : ∀ x y z, o.decide_action x y z ≠ none)
    (hval : ∀ x y, o.validResp x y ≠ none) :
    runTask o m outputs t = graphTask o m outputs t := by
  obtain ⟨recs, hsub⟩ := subloop_ok o t.description (contextFor outputs) hdec m []
  unfold runTask graphTask
  simp only [hd, Bool.false_eq_true, if_false]
  rw [hsub]
  rcases hv : o.validResp t.description
      (String.intercalate "\n" (outputs ++ recs.map recToString)) with _ | b
  · exact absurd hv (hval _ _)
  · cases b <;> simp [validate_task, hv]

lemma aux_vs_seq (o : Oracle) (m : Nat) : ∀ (ts : List Task) (outputs : List String),
    (∀ t ∈ ts, t.done = false) →
    (agentRunAux o m outputs ts).1 = (graphSeq o m outputs ts).1 ∧
    toolEvents (agentRunAux o m outputs ts).2 = toolEvents (graphSeq o m outputs ts).2 ∧
    execStarts (agentRunAux o m outputs ts).2 = ts.map Task.id ∧
    execStarts (graphSeq o m outputs ts).2 = ts.map Task.id := by
  intro ts
  induction ts with
  | nil => intro outputs hall; simp [agentRunAux, graphSeq, toolEvents, execStarts]
  | cons t rest ih =>
    intro outputs hall
    have hd := hall t (List.mem_cons_self ..)
    have h1 := runTask_fst o m outputs t hd
    have h2 := runTask_marks o m outputs t hd
    have hrec := ih (runTask o m outputs t).1
      (fun u hu => hall u (List.mem_cons_of_mem _ hu))
    show ((agentRunAux o m (runTask o m outputs t).1 rest).1, _).1 = _ ∧ _
    simp only [agentRunAux, graphSeq, ← h1]
    refine ⟨hrec.1, ?_, ?_, ?_⟩
    · rw [toolEvents_append, toolEvents_append, h2.1, hrec.2.1]
    · rw [execStarts_append, h2.2.1, hrec.2.2.1]
      simp
    · rw [execStarts_append, h2.2.2, hrec.2.2.2]
      simp

lemma aux_eq_seq (o : Oracle) (m : Nat)
    (hdec : ∀ x y z, o.decide_action x y z ≠ none)
    (hval : ∀ x y, o.validResp x y ≠ none) :
    ∀ (ts : List Task) (outputs : List String), (∀ t ∈ ts, t.done = false) →
    agentRunAux o m outputs ts = graphSeq o m outputs ts := by
  intro ts
  induction ts with
  | nil => intro outputs hall; rfl
  | cons t rest ih =>
    intro outputs hall
    have hd := hall t (List.mem_cons_self ..)
    have h1 := runTask_eq_graphTask o m outputs t hd hdec hval
    simp only [agentRunAux, graphSeq, h1]
    rw [ih (graphTask o m outputs t).1 (fun u hu => hall u (List.mem_cons_of_mem _ hu))]

/-! ## Call counting -/

lemma generate_answer_snd (o : Oracle) (q : String) (outputs : List String) :
    (generate_answer o q outputs).2 = [.answerCall q (renderResults outputs)] := by
  unfold generate_answer
  split <;> rfl

lemma callCount_nil : callCount ([] : List Ev) = 0 := rfl

lemma callCount_execStart (i : Nat) (l : List Ev) :
    callCount (.execStart i :: l) = callCount l := by
  simp [callCount, List.filter_cons, isCall]

lemma callCount_doneSet (i : Nat) (l : List Ev) :
    callCount (.doneSet i :: l) = callCount l := by
  simp [callCount, List.filter_cons, isCall]

lemma callCount_validCall (a b : String) (l : List Ev) :
    callCount (.validCall a b :: l) = callCount l + 1 := by
  simp [callCount, List.filter_cons, isCall]

lemma callCount_planCall (l : List Ev) : callCount (.planCall :: l) = callCount l + 1 := by
  simp [callCount, List.filter_cons, isCall]

lemma callCount_answerCall (a b : String) (l : List Ev) :
    callCount (.answerCall a b :: l) = callCount l + 1 := by
  simp [callCount, List.filter_cons, isCall]

lemma runTask_calls (o : Oracle) (m : Nat) (outputs : List String) (t : Task) :
    callCount (runTask o m outputs t).2 ≤ 2 * m + 1 := by
  have hsC := (subloop_events o t.description (contextFor outputs) m []).2.2.2
  unfold runTask
  by_cases hd : t.done
  · simp [hd, callCount_nil]
  · simp only [hd, Bool.false_eq_true, if_false]
    rcases hsub : (execSubLoopEv o t.description (contextFor outputs) m []).2 with _ | recs
    · simp only [callCount_execStart, callCount_append, callCount_doneSet, callCount_nil]
      omega
    · by_cases hv : validate_task o t.description
          (String.intercalate "\n" (outputs ++ recs.map recToString))
      · simp [hv, callCount_execStart, callCount_append, callCount_validCall,
          callCount_doneSet, callCount_nil]
        omega
      · simp [hv, callCount_execStart, callCount_append, callCount_validCall, callCount_nil]
        omega

lemma graphTask_calls (o : Oracle) (m : Nat) (outputs : List String) (t : Task) :
    callCount (graphTask o m outputs t).2 ≤ 2 * m + 1 := by
  have hsC := (subloop_events o t.description (contextFor outputs) m []).2.2.2
  unfold graphTask
  rcases hsub : (execSubLoopEv o t.description (contextFor outputs) m []).2 with _ | recs
  · rcases hv : o.validResp t.description (String.intercalate "\n" outputs) with _ | b
    · simp [callCount_execStart, callCount_append, callCount_validCall, callCount_doneSet,
        callCount_nil]
      omega
    · cases b <;>
      · simp [callCount_execStart, callCount_append, callCount_validCall, callCount_doneSet,
          callCount_nil]
        omega
  · rcases hv : o.validResp t.description
        (String.intercalate "\n" (outputs ++ recs.map recToString)) with _ | b
    · simp [hv, callCount_execStart, callCount_append, callCount_validCall, callCount_doneSet,
        callCount_nil]
      omega
    · cases b <;>
      · simp [hv, callCount_execStart, callCount_append, callCount_validCall, callCount_doneSet,
          callCount_nil]
        omega

lemma aux_calls (o : Oracle) (m : Nat) : ∀ (ts : List Task) (outputs : List String),
    callCount (agentRunAux o m outputs ts).2 ≤ (2 * m + 1) * ts.length := by
  intro ts
  induction ts with
  | nil => intro outputs; simp [agentRunAux, callCount_nil]
  | cons t rest ih =>
    intro outputs
    have h1 := runTask_calls o m outputs t
    have h2 := ih (runTask o m outputs t).1
    show callCount ((runTask o m outputs t).2 ++ (agentRunAux o m (runTask o m outputs t).1 rest).2) ≤ _
    rw [callCount_append]
    have : (2 * m + 1) * (t :: rest).length = (2 * m + 1) * rest.length + (2 * m + 1) := by
      simp [List.length_cons]
      ring
    omega

lemma seq_calls (o : Oracle) (m : Nat) : ∀ (ts : List Task) (outputs : List String),
    callCount (graphSeq o m outputs ts).2 ≤ (2 * m + 1) * ts.length := by
  intro ts
  induction ts with
  | nil => intro outputs; simp [graphSeq, callCount_nil]
  | cons t rest ih =>
    intro outputs
    have h1 := graphTask_calls o m outputs t
    have h2 := ih (graphTask o m outputs t).1
    show callCount ((graphTask o m outputs t).2 ++ (graphSeq o m (graphTask o m outputs t).1 rest).2) ≤ _
    rw [callCount_append]
    have : (2 * m + 1) * (t :: rest).length = (2 * m + 1) * rest.length + (2 * m + 1) := by
      simp [List.length_cons]
      ring
    omega

lemma callCount_decideCall (a b : String) (l : List Ev) :
    callCount (.decideCall a b :: l) = callCount l + 1 := by
  simp [callCount, List.filter_cons, isCall]

lemma callCount_toolCall (r : ToolRec) (l : List Ev) :
    callCount (.toolCall r :: l) = callCount l + 1 := by
  simp [callCount, List.filter_cons, isCall]

lemma agentRun_notEmpty (maxS m : Nat) (o : Oracle) (q : String)
    (h : (plan_tasks o q).isEmpty = false) :
    agentRun maxS m o q =
      ⟨(generate_answer o q (agentRunAux o m [] (plan_tasks o q)).1).1,
        .planCall :: ((agentRunAux o m [] (plan_tasks o q)).2 ++
          (generate_answer o q (agentRunAux o m [] (plan_tasks o q)).1).2)⟩ := by
  unfold agentRun
  rw [if_neg (by simp [h])]

lemma agentRun_empty (maxS m : Nat) (o : Oracle) (q : String)
    (h : (plan_tasks o q).isEmpty = true) :
    agentRun maxS m o q =
      ⟨(generate_answer o q []).1, .planCall :: (generate_answer o q []).2⟩ := by
  unfold agentRun
  rw [if_pos h]

/-! ## Concrete oracles used as inputs -/

/-- Oracle with one planned task whose validation gateway call fails. -/
def oC1 : Oracle where
  planResp := some ["t1"]
  decide_action := fun _ _ _ => some none
  toolResp := fun _ _ => ""
  validResp := fun _ _ => none
  answerResp := fun _ _ => some "ans"

/-- Oracle whose planner returns the empty plan. -/
def oEmpty : Oracle where
  planResp := some []
  decide_action := fun _ _ _ => some none
  toolResp := fun _ _ => ""
  validResp := fun _ _ => some true
  answerResp := fun _ _ => some "direct answer"

/-- Oracle on which every gateway call fails. -/
def oFail : Oracle where
  planResp := none
  decide_action := fun _ _ _ => none
  toolResp := fun _ _ => ""
  validResp := fun _ _ => none
  answerResp := fun _ _ => none

/-- Oracle on which no gateway call fails. -/
def okOracle : Oracle where
  planResp := some ["t1", "t2"]
  decide_action := fun _ _ acc => some (if acc.isEmpty then some ⟨"w", "i"⟩ else none)
  toolResp := fun _ _ => "out"
  validResp := fun _ _ => some true
  answerResp := fun _ _ => some "final"

/-- Oracle planning 21 tasks, each settled in one sub-loop step. -/
def manyOracle : Oracle where
  planResp := some (List.replicate 21 "t")
  decide_action := fun _ _ _ => some none
  toolResp := fun _ _ => ""
  validResp := fun _ _ => some false
  answerResp := fun _ _ => some "a"

/-- Family of oracles planning k tasks that each exhaust the sub-loop. -/
def badOracle (k : Nat) : Oracle where
  planResp := some (List.replicate k "t")
  decide_action := fun _ _ _ => some (some ⟨"w", "i"⟩)
  toolResp := fun _ _ => "o"
  validResp := fun _ _ => some false
  answerResp := fun _ _ => some "a"

lemma badOracle_subloop (k : Nat) (d c : String) : ∀ (fuel : Nat) (acc : List ToolRec),
    callCount (execSubLoopEv (badOracle k) d c fuel acc).1 = 2 * fuel ∧
    ∃ recs, (execSubLoopEv (badOracle k) d c fuel acc).2 = some recs := by
  intro fuel
  induction fuel with
  | zero => intro acc; exact ⟨by simp [execSubLoopEv, callCount_nil], acc, rfl⟩
  | succ n ih =>
    intro acc
    have h := ih (acc ++ [⟨"w", "i", (badOracle k).toolResp "w" "i"⟩])
    unfold execSubLoopEv
    show callCount (Ev.decideCall d c :: Ev.toolCall _ :: _) = _ ∧ _
    rw [callCount_decideCall, callCount_toolCall, h.1]
    exact ⟨by ring, h.2⟩

lemma badOracle_runTask (k : Nat) (outputs : List String) (t : Task) (hd : t.done = false) :
    callCount (runTask (badOracle k) 3 outputs t).2 = 7 := by
  obtain ⟨hc, recs, hsub⟩ := badOracle_subloop k t.description (contextFor outputs) 3 []
  have hbv : ∀ x y, validate_task (badOracle k) x y = false := fun x y => rfl
  unfold runTask
  simp only [hd, Bool.false_eq_true, if_false, hsub, hbv, callCount_execStart,
    callCount_append, callCount_validCall, callCount_nil, hc]

lemma badOracle_aux (k : Nat) : ∀ (ts : List Task) (outputs : List String),
    (∀ t ∈ ts, t.done = false) →
    callCount (agentRunAux (badOracle k) 3 outputs ts).2 = 7 * ts.length := by
  intro ts
  induction ts with
  | nil => intro outputs hall; simp [agentRunAux, callCount_nil]
  | cons t rest ih =>
    intro outputs hall
    have h1 := badOracle_runTask k outputs t (hall t (List.mem_cons_self ..))
    have h2 := ih (runTask (badOracle k) 3 outputs t).1
      (fun u hu => hall u (List.mem_cons_of_mem _ hu))
    show callCount ((runTask (badOracle k) 3 outputs t).2 ++
        (agentRunAux (badOracle k) 3 (runTask (badOracle k) 3 outputs t).1 rest).2) = _
    rw [callCount_append, h1, h2]
    simp [List.length_cons]
    ring

lemma plan_bad_len (k : Nat) : (plan_tasks (badOracle k) "q").length = k := by
  show (mkPlan (List.replicate k "t")).length = k
  unfold mkPlan
  rw [mkPlanFrom_length, List.length_replicate]

lemma runTask_decide_ctx (o : Oracle) (m : Nat) (outputs : List String) (t : Task)
    (hd : t.done = false) :
    ∀ d c, Ev.decideCall d c ∈ (runTask o m outputs t).2 → c = contextFor outputs := by
  have hsDC := (subloop_events o t.description (contextFor outputs) m []).2.2.1
  unfold runTask
  simp only [hd, Bool.false_eq_true, if_false]
  rcases hsub : (execSubLoopEv o t.description (contextFor outputs) m []).2 with _ | recs
  · intro d c hmem
    simp at hmem
    exact (hsDC d c hmem).2
  · by_cases hv : validate_task o t.description
        (String.intercalate "\n" (outputs ++ recs.map recToString))
    · simp only [hv, if_true]
      intro d c hmem
      simp at hmem
      exact (hsDC d c hmem).2
    · simp only [hv, Bool.false_eq_true, if_false]
      intro d c hmem
      simp at hmem
      exact (hsDC d c hmem).2

lemma executor_node_decide_ctx (o : Oracle) (m : Nat) (st : GState) :
    ∀ d c, Ev.decideCall d c ∈ (executor_node o m st).2 → c = contextFor st.session_outputs := by
  unfold executor_node
  rcases ht : st.tasks[st.current_task_idx]? with _ | t
  · intro d c hmem
    simp at hmem
  · by_cases hd : t.done
    · simp only [hd, if_true]
      intro d c hmem
      simp at hmem
    · simp only [hd, Bool.false_eq_true, if_false]
      have hsDC := (subloop_events o t.description (contextFor st.session_outputs) m []).2.2.1
      rcases hsub : (execSubLoopEv o t.description (contextFor st.session_outputs) m []).2
          with _ | recs
      · intro d c hmem
        simp at hmem
        exact (hsDC d c hmem).2
      · intro d c hmem
        simp at hmem
        exact (hsDC d c hmem).2

lemma renderResults_ne (outputs : List String) (h : outputs ≠ []) :
    renderResults outputs = String.intercalate "\n\n" outputs := by
  unfold renderResults
  rw [if_neg (by simp [h])]

/-! ## Claim theorems -/

/-- C1 (amended): for every query and oracle of gateway/tool responses, the
linear implementation (Agent.run) and the state-graph implementation
(AgentGraph.run) produce the same final answer string and the same sequence
of tool invocations; moreover, when no executor-sub-loop gateway call and no
validation gateway call fails, the complete event traces — done-flag updates
included — coincide. (The done-flag update sequences are not equal in
general; see the counterexample.) -/
theorem C1_equiv (maxS m : Nat) (o : Oracle) (q : String) :
    (agentRun maxS m o q).answer = (graphRun maxS m o q).answer ∧
    toolEvents (agentRun maxS m o q).events = toolEvents (graphRun maxS m o q).events ∧
    ((∀ x y z, o.decide_action x y z ≠ none) → (∀ x y, o.validResp x y ≠ none) →
      (agentRun maxS m o q).events = (graphRun maxS m o q).events) := by
  rw [graphRun_eq_seq]
  by_cases he : (plan_tasks o q).isEmpty
  · rw [agentRun_empty maxS m o q he]
    have hnil : plan_tasks o q = [] := List.isEmpty_iff.mp he
    rw [hnil]
    exact ⟨rfl, rfl, fun _ _ => rfl⟩
  · have he' : (plan_tasks o q).isEmpty = false := by
      rcases h : (plan_tasks o q).isEmpty
      · rfl
      · exact absurd h he
    rw [agentRun_notEmpty maxS m o q he']
    obtain ⟨e1, e2, e3, e4⟩ := aux_vs_seq o m (plan_tasks o q) [] (plan_tasks_done o q)
    refine ⟨?_, ?_, ?_⟩
    · show (generate_answer o q (agentRunAux o m [] (plan_tasks o q)).1).1 =
        (generate_answer o q (graphSeq o m [] (plan_tasks o q)).1).1
      rw [e1]
    · show toolEvents (.planCall :: ((agentRunAux o m [] (plan_tasks o q)).2 ++
          (generate_answer o q (agentRunAux o m [] (plan_tasks o q)).1).2)) =
        toolEvents (.planCall :: ((graphSeq o m [] (plan_tasks o q)).2 ++
          (generate_answer o q (graphSeq o m [] (plan_tasks o q)).1).2))
      rw [toolEvents_planCall, toolEvents_planCall, toolEvents_append, toolEvents_append,
        e2, e1]
    · intro hdec hval
      show Ev.planCall :: ((agentRunAux o m [] (plan_tasks o q)).2 ++
          (generate_answer o q (agentRunAux o m [] (plan_tasks o q)).1).2) =
        Ev.planCall :: ((graphSeq o m [] (plan_tasks o q)).2 ++
          (generate_answer o q (graphSeq o m [] (plan_tasks o q)).1).2)
      rw [aux_eq_seq o m hdec hval (plan_tasks o q) [] (plan_tasks_done o q)]

/-- C1 counterexample: with a single planned task whose validation gateway
call fails, the two implementations record different done-flag update
sequences — the graph marks task 1 done, the linear loop leaves the flag
untouched — so the claimed unconditional behavioural equivalence fails. -/
theorem C1_counterexample :
    doneSets (agentRun 20 3 oC1 "q").events ≠ doneSets (graphRun 20 3 oC1 "q").events := by
  rw [graphRun_eq_seq]
  decide

/-- C1 witness: at a concrete failure-free oracle the two implementations
produce identical answers and identical full traces. -/
theorem C1_witness :
    (agentRun 20 3 okOracle "q").answer = (graphRun 20 3 okOracle "q").answer ∧
    (agentRun 20 3 okOracle "q").events = (graphRun 20 3 okOracle "q").events :=
  ⟨(C1_equiv 20 3 okOracle "q").1,
   (C1_equiv 20 3 okOracle "q").2.2 (fun _ _ _ h => Option.noConfusion h)
     (fun _ _ h => Option.noConfusion h)⟩

/-- C2 (amended): when the Validator's gateway call fails for the current
task, the graph implementation sets the task's done flag and advances the
index; the linear implementation's validate_task returns False on failure, so
the task's flag stays false there, but the loop still advances without
retrying (the index advances after every validation regardless of outcome). -/
theorem C2_force_progress :
    (∀ (o : Oracle) (st : GState) (t : Task),
      st.tasks[st.current_task_idx]? = some t →
      o.validResp t.description (String.intercalate "\n" st.session_outputs) = none →
      (validator_node o st).1.tasks = setDone st.tasks st.current_task_idx ∧
      (validator_node o st).1.current_task_idx = st.current_task_idx + 1 ∧
      (validator_node o st).2 =
        [.validCall t.description (String.intercalate "\n" st.session_outputs),
          .doneSet t.id]) ∧
    (∀ (o : Oracle) (d r : String), o.validResp d r = none → validate_task o d r = false) ∧
    (∀ (o : Oracle) (st : GState), st.current_task_idx < st.tasks.length →
      (validator_node o st).1.current_task_idx = st.current_task_idx + 1) := by
  refine ⟨?_, ?_, ?_⟩
  · intro o st t ht hv
    unfold validator_node
    rw [ht]
    simp [hv]
  · intro o d r h
    unfold validate_task
    rw [h]
  · intro o st hlt
    rcases validator_node_idx o st with h | ⟨h, hlen⟩
    · exact h
    · omega

/-- C2 counterexample: in the linear implementation, a failing validation
gateway call for task 1 leaves the done flag unset (no done-flag update event
occurs), contradicting the claim that the task's done flag becomes true. -/
theorem C2_counterexample :
    oC1.validResp "t1" "" = none ∧
    Ev.validCall "t1" "" ∈ (agentRun 20 3 oC1 "q").events ∧
    Ev.doneSet 1 ∉ (agentRun 20 3 oC1 "q").events := by
  refine ⟨rfl, ?_, ?_⟩ <;> decide

/-- C2 witness: the graph validator at a concrete state whose validation
call fails marks the task done and advances the index. -/
theorem C2_witness :
    (validator_node oC1 ⟨[⟨1, "t1", false⟩], 0, []⟩).1.tasks =
      setDone [⟨1, "t1", false⟩] 0 ∧
    (validator_node oC1 ⟨[⟨1, "t1", false⟩], 0, []⟩).1.current_task_idx = 0 + 1 ∧
    (validator_node oC1 ⟨[⟨1, "t1", false⟩], 0, []⟩).2 =
      [.validCall "t1" (String.intercalate "\n" []), .doneSet 1] :=
  C2_force_progress.1 oC1 ⟨[⟨1, "t1", false⟩], 0, []⟩ ⟨1, "t1", false⟩ rfl rfl

/-- Answer of generate_answer under total answer-gateway failure. -/
lemma generate_answer_fail (o : Oracle) (q : String) (outputs : List String)
    (h : ∀ r, o.answerResp q r = none) :
    (generate_answer o q outputs).1 = "Unable to generate answer due to an error." := by
  unfold generate_answer
  rw [h (renderResults outputs)]

/-- C3 (amended): both implementations are total functions of the oracle —
every run, including one in which every gateway call and tool call fails,
reaches the answer state — and the number of gateway/tool calls is bounded by
(2·max_steps_per_task + 1)·|plan| + 2; when every answer-gateway call fails
the returned string is the fixed non-empty fallback. -/
theorem C3_termination (maxS m : Nat) (o : Oracle) (q : String) :
    callCount (agentRun maxS m o q).events ≤ (2 * m + 1) * (plan_tasks o q).length + 2 ∧
    callCount (graphRun maxS m o q).events ≤ (2 * m + 1) * (plan_tasks o q).length + 2 ∧
    ((∀ r, o.answerResp q r = none) →
      (agentRun maxS m o q).answer = "Unable to generate answer due to an error." ∧
      (graphRun maxS m o q).answer = "Unable to generate answer due to an error.") := by
  rw [graphRun_eq_seq]
  by_cases he : (plan_tasks o q).isEmpty
  · have hnil : plan_tasks o q = [] := List.isEmpty_iff.mp he
    rw [agentRun_empty maxS m o q he, hnil]
    refine ⟨?_, ?_, ?_⟩
    · show callCount (.planCall :: (generate_answer o q []).2) ≤ _
      rw [callCount_planCall, generate_answer_snd, callCount_answerCall, callCount_nil]
      omega
    · show callCount (.planCall :: ((graphSeq o m [] []).2 ++
          (generate_answer o q (graphSeq o m [] []).1).2)) ≤ _
      rw [callCount_planCall]
      show callCount ([] ++ (generate_answer o q []).2) + 1 ≤ _
      rw [callCount_append, callCount_nil, generate_answer_snd, callCount_answerCall,
        callCount_nil]
      omega
    · intro h
      exact ⟨generate_answer_fail o q [] h, generate_answer_fail o q [] h⟩
  · have he' : (plan_tasks o q).isEmpty = false := by
      rcases h : (plan_tasks o q).isEmpty
      · rfl
      · exact absurd h he
    rw [agentRun_notEmpty maxS m o q he']
    refine ⟨?_, ?_, ?_⟩
    · show callCount (.planCall :: ((agentRunAux o m [] (plan_tasks o q)).2 ++
          (generate_answer o q (agentRunAux o m [] (plan_tasks o q)).1).2)) ≤ _
      rw [callCount_planCall, callCount_append, generate_answer_snd, callCount_answerCall,
        callCount_nil]
      have := aux_calls o m (plan_tasks o q) []
      omega
    · show callCount (.planCall :: ((graphSeq o m [] (plan_tasks o q)).2 ++
          (generate_answer o q (graphSeq o m [] (plan_tasks o q)).1).2)) ≤ _
      rw [callCount_planCall, callCount_append, generate_answer_snd, callCount_answerCall,
        callCount_nil]
      have := seq_calls o m (plan_tasks o q) []
      omega
    · intro h
      exact ⟨generate_answer_fail o q _ h, generate_answer_fail o q _ h⟩

/-- C3 counterexample: no constant C makes the total number of gateway/tool
calls of a run bounded by max_steps_per_task·|plan| + C (at the default
max_steps_per_task = 3): a plan of C+1 tasks that each exhaust the sub-loop
performs 7·(C+1)+2 calls, which exceeds 3·(C+1)+C. -/
theorem C3_counterexample :
    ¬ ∃ C : Nat, ∀ (o : Oracle) (q : String),
      callCount (agentRun 20 3 o q).events ≤ 3 * (plan_tasks o q).length + C := by
  rintro ⟨C, hC⟩
  have h := hC (badOracle (C + 1)) "q"
  have hlen : (plan_tasks (badOracle (C + 1)) "q").length = C + 1 := plan_bad_len (C + 1)
  have hne : (plan_tasks (badOracle (C + 1)) "q").isEmpty = false := by
    rcases hl : plan_tasks (badOracle (C + 1)) "q" with _ | ⟨a, l⟩
    · rw [hl] at hlen
      simp at hlen
    · rfl
  have hcount : callCount (agentRun 20 3 (badOracle (C + 1)) "q").events = 7 * (C + 1) + 2 := by
    rw [agentRun_notEmpty 20 3 (badOracle (C + 1)) "q" hne]
    show callCount (.planCall :: ((agentRunAux (badOracle (C + 1)) 3 []
        (plan_tasks (badOracle (C + 1)) "q")).2 ++ _)) = _
    rw [callCount_planCall, callCount_append, generate_answer_snd, callCount_answerCall,
      callCount_nil,
      badOracle_aux (C + 1) (plan_tasks (badOracle (C + 1)) "q") []
        (plan_tasks_done (badOracle (C + 1)) "q"), hlen]
  rw [hcount, hlen] at h
  omega

/-- C3 witness: with the all-failure oracle the bound holds and both
implementations return the fixed fallback answer string. -/
theorem C3_witness :
    callCount (agentRun 20 3 oFail "q").events ≤ (2 * 3 + 1) * (plan_tasks oFail "q").length + 2 ∧
    (agentRun 20 3 oFail "q").answer = "Unable to generate answer due to an error." ∧
    (graphRun 20 3 oFail "q").answer = "Unable to generate answer due to an error." :=
  ⟨(C3_termination 20 3 oFail "q").1,
   ((C3_termination 20 3 oFail "q").2.2 (fun _ => rfl)).1,
   ((C3_termination 20 3 oFail "q").2.2 (fun _ => rfl)).2⟩

/-- C4 (code bug): the configured global max_steps value is stored by both
constructors but never consulted: both runs are insensitive to it, and a run
with a 21-task plan under the default max_steps = 20 performs 21 executor
iterations, so no circuit breaker bounds orchestrator iterations by 20. -/
theorem C4_max_steps_unused :
    (∀ (a b m : Nat) (o : Oracle) (q : String), agentRun a m o q = agentRun b m o q) ∧
    (∀ (a b m : Nat) (o : Oracle) (q : String), graphRun a m o q = graphRun b m o q) ∧
    (execStarts (agentRun 20 3 manyOracle "q").events).length = 21 ∧
    (execStarts (graphRun 20 3 manyOracle "q").events).length = 21 ∧
    20 < 21 := by
  obtain ⟨e1, e2, e3, e4⟩ :=
    aux_vs_seq manyOracle 3 (plan_tasks manyOracle "q") [] (plan_tasks_done manyOracle "q")
  have hlen : (plan_tasks manyOracle "q").length = 21 := by
    show (mkPlan (List.replicate 21 "t")).length = 21
    unfold mkPlan
    rw [mkPlanFrom_length, List.length_replicate]
  have hne : (plan_tasks manyOracle "q").isEmpty = false := by
    rcases hl : plan_tasks manyOracle "q" with _ | ⟨a, l⟩
    · rw [hl] at hlen
      simp at hlen
    · rfl
  refine ⟨fun a b m o q => rfl, fun a b m o q => rfl, ?_, ?_, by omega⟩
  · rw [agentRun_notEmpty 20 3 manyOracle "q" hne]
    show (execStarts (.planCall :: ((agentRunAux manyOracle 3 []
        (plan_tasks manyOracle "q")).2 ++ _))).length = 21
    rw [execStarts_planCall, execStarts_append, e3, generate_answer_snd,
      execStarts_answerCall, execStarts_nil, List.append_nil, List.length_map, hlen]
  · rw [graphRun_eq_seq]
    show (execStarts (.planCall :: ((graphSeq manyOracle 3 []
        (plan_tasks manyOracle "q")).2 ++ _))).length = 21
    rw [execStarts_planCall, execStarts_append, e4, generate_answer_snd,
      execStarts_answerCall, execStarts_nil, List.append_nil, List.length_map, hlen]

lemma search_web_count (limit : Option Nat) (call : SearchCall) (count : Nat) :
    (search_web limit call count).2.1 = count ∨
    ((search_web limit call count).2.1 = count + 1 ∧
      (check_tavily_limit count limit).1 = true) := by
  unfold search_web
  by_cases hc : (check_tavily_limit count limit).1 = false
  · simp [hc]
  · have hc' : (check_tavily_limit count limit).1 = true := by
      rcases h : (check_tavily_limit count limit).1
      · exact absurd h hc
      · rfl
    rcases hk : call.apiKey with _ | key
    · simp [hc, hk]
    · rcases hn : call.net with e | r <;> simp [hc, hk, hn, hc']

lemma check_some_true (N count : Nat) :
    (check_tavily_limit count (some N)).1 = true → count < N := by
  unfold check_tavily_limit
  by_cases hge : count ≥ N
  · simp [hge]
  · intro _
    omega

lemma search_fold_le (N : Nat) : ∀ (calls : List SearchCall) (count : Nat), count ≤ N →
    search_fold (some N) count calls ≤ N := by
  intro calls
  induction calls with
  | nil => intro count h; exact h
  | cons c cs ih =>
    intro count h
    show search_fold (some N) (search_web (some N) c count).2.1 cs ≤ N
    apply ih
    rcases search_web_count (some N) c count with h1 | ⟨h1, h2⟩
    · omega
    · have := check_some_true N count h2
      omega

/-- C5: with a configured ceiling N, any call made when the counter has
reached N returns the quota error payload, performs no network call and
leaves the counter unchanged; the counter increments exactly on success and
is never reset, so the counter never exceeds N starting from 0; with no
ceiling configured the quota check always allows the search. -/
theorem C5_search_quota :
    (∀ (N count : Nat) (call : SearchCall), N ≤ count →
      search_web (some N) call count =
        (.errorPayload (check_tavily_limit count (some N)).2, count, false)) ∧
    (∀ (limit : Option Nat) (call : SearchCall) (count : Nat),
      count ≤ (search_web limit call count).2.1 ∧
      (search_web limit call count).2.1 ≤ count + 1) ∧
    (∀ (limit : Option Nat) (call : SearchCall) (count : Nat),
      ((search_web limit call count).2.1 = count + 1 ↔
        ∃ r i, (search_web limit call count).1 = .success r i)) ∧
    (∀ count : Nat, check_tavily_limit count none = (true, "")) ∧
    (∀ (key : String) (net : Except String String) (count : Nat),
      (search_web none ⟨some key, net⟩ count).2.2 = true) ∧
    (∀ (N : Nat) (calls : List SearchCall), search_fold (some N) 0 calls ≤ N) := by
  refine ⟨?_, ?_, ?_, fun count => rfl, ?_, fun N calls => search_fold_le N calls 0 (by omega)⟩
  · intro N count call h
    have hc : (check_tavily_limit count (some N)).1 = false := by
      unfold check_tavily_limit
      simp [h]
    unfold search_web
    rw [if_pos hc]
  · intro limit call count
    rcases search_web_count limit call count with h | ⟨h, _⟩ <;> omega
  · intro limit call count
    unfold search_web
    by_cases hc : (check_tavily_limit count limit).1 = false
    · simp [hc]
    · rcases hk : call.apiKey with _ | key
      · simp [hc, hk]
      · rcases hn : call.net with e | r <;> simp [hc, hk, hn]
  · intro key net count
    unfold search_web
    rcases net with e | r <;> simp [check_tavily_limit]

/-- C5 witness: with ceiling 2 and counter already at 2, a concrete call
short-circuits with the quota error, no network activity and an unchanged
counter; and the counter stays at or below the ceiling over a run. -/
theorem C5_witness :
    search_web (some 2) ⟨some "k", .ok "resp"⟩ 2 =
      (.errorPayload (check_tavily_limit 2 (some 2)).2, 2, false) ∧
    search_fold (some 2) 0 [⟨some "k", .ok "a"⟩, ⟨some "k", .ok "b"⟩, ⟨some "k", .ok "c"⟩] ≤ 2 :=
  ⟨C5_search_quota.1 2 2 ⟨some "k", .ok "resp"⟩ (by omega),
   C5_search_quota.2.2.2.2.2 2 [⟨some "k", .ok "a"⟩, ⟨some "k", .ok "b"⟩, ⟨some "k", .ok "c"⟩]⟩

/-- C6: any expression containing a character outside digits, dot,
whitespace and the operators is rejected with the fixed invalid-characters
message, identically for every evaluator (no evaluation is attempted); any
expression inside the character set yields either the formatted result string
or an error string; concretely, calculator("2+2") is a result string
containing the character 4 and calculator("import os") is the rejection. -/
theorem C6_calculator_safety :
    (∀ (ev : String → Except String String) (e : String), calc_check e = false →
      calculator ev e = invalid_chars_msg) ∧
    (∀ (ev1 ev2 : String → Except String String) (e : String), calc_check e = false →
      calculator ev1 e = calculator ev2 e) ∧
    (∀ (ev : String → Except String String) (e : String), calc_check e = true →
      (∃ r, ev e = .ok r ∧ calculator ev e = e ++ " = " ++ r) ∨
      (∃ msg, ev e = .error msg ∧
        calculator ev e = "Error calculating \x27" ++ e ++ "\x27: " ++ msg)) ∧
    calculator pythonEval "2+2" = "2+2 = 4" ∧
    ('4' ∈ (calculator pythonEval "2+2").toList) ∧
    calc_check "import os" = false ∧
    calculator pythonEval "import os" = invalid_chars_msg := by
  refine ⟨?_, ?_, ?_, by decide, by decide, by decide, by decide⟩
  · intro ev e h
    unfold calculator
    rw [if_pos h]
  · intro ev1 ev2 e h
    unfold calculator
    rw [if_pos h, if_pos h]
  · intro ev e h
    unfold calculator
    rw [if_neg (by simp [h])]
    rcases hev : ev e with msg | r
    · exact Or.inr ⟨msg, rfl, rfl⟩
    · exact Or.inl ⟨r, rfl, rfl⟩

/-- C6 witness: a concrete disallowed expression is rejected independently of
the evaluator, and the concrete allowed expression 2+2 takes the
formatted-result branch. -/
theorem C6_witness :
    calculator pythonEval "a+b" = invalid_chars_msg ∧
    ((∃ r, pythonEval "2+2" = .ok r ∧ calculator pythonEval "2+2" = "2+2" ++ " = " ++ r) ∨
      (∃ msg, pythonEval "2+2" = .error msg ∧
        calculator pythonEval "2+2" = "Error calculating \x27" ++ "2+2" ++ "\x27: " ++ msg)) :=
  ⟨C6_calculator_safety.1 pythonEval "a+b" (by decide),
   C6_calculator_safety.2.2.1 pythonEval "2+2" (by decide)⟩

/-- C7: when the planner gateway returns the empty plan, both implementations
invoke no tool at all and hand the Answer Synthesizer the rendering of the
empty log, which is the fixed no-data placeholder. -/
theorem C7_empty_plan (maxS m : Nat) (o : Oracle) (q : String) (h : o.planResp = some []) :
    (agentRun maxS m o q).events = [.planCall, .answerCall q "No data was collected."] ∧
    (graphRun maxS m o q).events = [.planCall, .answerCall q "No data was collected."] ∧
    toolEvents (agentRun maxS m o q).events = [] ∧
    toolEvents (graphRun maxS m o q).events = [] := by
  have hplan : plan_tasks o q = [] := by
    unfold plan_tasks
    rw [h]
    rfl
  have he : (plan_tasks o q).isEmpty = true := by rw [hplan]; rfl
  have h1 : (agentRun maxS m o q).events =
      [.planCall, .answerCall q "No data was collected."] := by
    rw [agentRun_empty maxS m o q he]
    show Ev.planCall :: (generate_answer o q []).2 = _
    rw [generate_answer_snd]
    rfl
  have h2 : (graphRun maxS m o q).events =
      [.planCall, .answerCall q "No data was collected."] := by
    rw [graphRun_eq_seq]
    show Ev.planCall :: ((graphSeq o m [] (plan_tasks o q)).2 ++
        (generate_answer o q (graphSeq o m [] (plan_tasks o q)).1).2) = _
    rw [hplan]
    show Ev.planCall :: ([] ++ (generate_answer o q []).2) = _
    rw [List.nil_append, generate_answer_snd]
    rfl
  refine ⟨h1, h2, ?_, ?_⟩
  · rw [h1]
    rfl
  · rw [h2]
    rfl

/-- C7 witness: a concrete empty-plan oracle yields the no-data answer path
with an empty tool trace in both implementations. -/
theorem C7_witness :
    (agentRun 20 3 oEmpty "q").events =
      [.planCall, .answerCall "q" "No data was collected."] ∧
    (graphRun 20 3 oEmpty "q").events =
      [.planCall, .answerCall "q" "No data was collected."] ∧
    toolEvents (agentRun 20 3 oEmpty "q").events = [] ∧
    toolEvents (graphRun 20 3 oEmpty "q").events = [] :=
  C7_empty_plan 20 3 oEmpty "q" rfl

/-- C8: the planner returns the gateway's tasks with sequential ids starting
at 1 and done=false (the TaskList coercion is modelled from the spec, the
schema file being absent from the sources); a gateway failure falls back to
exactly one synthetic task carrying the verbatim query; a gateway-returned
empty plan is preserved as-is. -/
theorem C8_planner_contract (o : Oracle) (q : String) :
    (o.planResp = none → plan_tasks o q = [⟨1, q, false⟩]) ∧
    (∀ ds, o.planResp = some ds →
      (plan_tasks o q).map Task.id = List.range' 1 ds.length ∧
      (plan_tasks o q).map Task.description = ds ∧
      ∀ t ∈ plan_tasks o q, t.done = false) ∧
    (o.planResp = some [] → plan_tasks o q = []) := by
  refine ⟨?_, ?_, ?_⟩
  · intro h
    unfold plan_tasks
    rw [h]
  · intro ds h
    unfold plan_tasks
    rw [h]
    exact ⟨mkPlanFrom_map_id ds 1, mkPlanFrom_map_desc ds 1, mkPlanFrom_done ds 1⟩
  · intro h
    unfold plan_tasks
    rw [h]
    rfl

/-- C8 witness: concrete instances of the fallback plan, the sequential-id
plan, and the preserved empty plan. -/
theorem C8_witness :
    plan_tasks oFail "q" = [⟨1, "q", false⟩] ∧
    ((plan_tasks oC1 "q").map Task.id = List.range' 1 (["t1"] : List String).length ∧
      (plan_tasks oC1 "q").map Task.description = ["t1"] ∧
      ∀ t ∈ plan_tasks oC1 "q", t.done = false) ∧
    plan_tasks oEmpty "q" = [] :=
  ⟨(C8_planner_contract oFail "q").1 rfl,
   (C8_planner_contract oC1 "q").2.1 ["t1"] rfl,
   (C8_planner_contract oEmpty "q").2.2 rfl⟩

/-- C9: when the session log holds more than 5 entries, the execution
context is exactly the newline-join of the last 5 entries, a length-5 suffix
of the log (verbatim, in order); the empty log yields the fixed placeholder;
every sub-loop gateway call of a task execution carries that context; and
the Answer Synthesizer is handed the join of the entire log. -/
theorem C9_context_window :
    (∀ outputs : List String, 5 < outputs.length →
      contextFor outputs = String.intercalate "\n" (lastN 5 outputs) ∧
      (lastN 5 outputs).length = 5 ∧ lastN 5 outputs <:+ outputs) ∧
    contextFor [] = "No previous context." ∧
    (∀ (o : Oracle) (m : Nat) (outputs : List String) (t : Task), t.done = false →
      ∀ d c, Ev.decideCall d c ∈ (runTask o m outputs t).2 → c = contextFor outputs) ∧
    (∀ (o : Oracle) (m : Nat) (st : GState) (d c : String),
      Ev.decideCall d c ∈ (executor_node o m st).2 → c = contextFor st.session_outputs) ∧
    (∀ (o : Oracle) (q : String) (outputs : List String), outputs ≠ [] →
      (generate_answer o q outputs).2 =
        [.answerCall q (String.intercalate "\n\n" outputs)]) := by
  refine ⟨?_, rfl, ?_, ?_, ?_⟩
  · intro outputs hlen
    have hne : outputs ≠ [] := by
      intro hh
      rw [hh] at hlen
      simp at hlen
    refine ⟨?_, ?_, ?_⟩
    · unfold contextFor
      rw [if_neg (by simp [hne])]
    · show (outputs.drop (outputs.length - 5)).length = 5
      rw [List.length_drop]
      omega
    · show outputs.drop (outputs.length - 5) <:+ outputs
      exact List.drop_suffix _ _
  · exact fun o m outputs t hd => runTask_decide_ctx o m outputs t hd
  · exact fun o m st d c => executor_node_decide_ctx o m st d c
  · intro o q outputs h
    rw [generate_answer_snd, renderResults_ne outputs h]

/-- C9 witness: concrete instances — a 6-entry log is windowed to its last
5 entries, a sub-loop gateway call on the empty log carries the placeholder
context, and the answer call carries the full-log join. -/
theorem C9_witness :
    (contextFor ["a", "b", "c", "d", "e", "f"] =
        String.intercalate "\n" (lastN 5 ["a", "b", "c", "d", "e", "f"]) ∧
      (lastN 5 ["a", "b", "c", "d", "e", "f"]).length = 5 ∧
      lastN 5 ["a", "b", "c", "d", "e", "f"] <:+ ["a", "b", "c", "d", "e", "f"]) ∧
    "No previous context." = contextFor [] ∧
    (generate_answer oC1 "q" ["x"]).2 =
      [.answerCall "q" (String.intercalate "\n\n" ["x"])] :=
  ⟨C9_context_window.1 ["a", "b", "c", "d", "e", "f"] (by decide),
   C9_context_window.2.2.1 oC1 3 [] ⟨1, "t1", false⟩ rfl "t1" "No previous context."
     (by decide),
   C9_context_window.2.2.2.2 oC1 "q" ["x"] (by decide)⟩

/-- C10: in both implementations each planned task is started exactly once,
in plan order (the execution-start trace is the plan's id sequence, which has
no duplicates), and the graph validator advances the task index regardless of
the verdict, so a done=false verdict never re-executes a task. -/
theorem C10_single_execution (maxS m : Nat) (o : Oracle) (q : String) :
    execStarts (agentRun maxS m o q).events = (plan_tasks o q).map Task.id ∧
    execStarts (graphRun maxS m o q).events = (plan_tasks o q).map Task.id ∧
    ((plan_tasks o q).map Task.id).Nodup ∧
    (∀ st : GState, st.current_task_idx < st.tasks.length →
      (validator_node o st).1.current_task_idx = st.current_task_idx + 1) := by
  obtain ⟨e1, e2, e3, e4⟩ := aux_vs_seq o m (plan_tasks o q) [] (plan_tasks_done o q)
  refine ⟨?_, ?_, ?_, ?_⟩
  · by_cases he : (plan_tasks o q).isEmpty
    · rw [agentRun_empty maxS m o q he, List.isEmpty_iff.mp he]
      show execStarts (.planCall :: (generate_answer o q []).2) = []
      rw [execStarts_planCall, generate_answer_snd]
      rfl
    · have he' : (plan_tasks o q).isEmpty = false := by
        rcases h : (plan_tasks o q).isEmpty
        · rfl
        · exact absurd h he
      rw [agentRun_notEmpty maxS m o q he']
      show execStarts (.planCall :: ((agentRunAux o m [] (plan_tasks o q)).2 ++
          (generate_answer o q (agentRunAux o m [] (plan_tasks o q)).1).2)) = _
      rw [execStarts_planCall, execStarts_append, e3, generate_answer_snd,
        execStarts_answerCall, execStarts_nil, List.append_nil]
  · rw [graphRun_eq_seq]
    show execStarts (.planCall :: ((graphSeq o m [] (plan_tasks o q)).2 ++
        (generate_answer o q (graphSeq o m [] (plan_tasks o q)).1).2)) = _
    rw [execStarts_planCall, execStarts_append, e4, generate_answer_snd,
      execStarts_answerCall, execStarts_nil, List.append_nil]
  · unfold plan_tasks
    rcases hp : o.planResp with _ | ds
    · simp
    · rw [show (mkPlan ds).map Task.id = List.range' 1 ds.length from mkPlanFrom_map_id ds 1]
      exact List.nodup_range' _ _
  · intro st hlt
    rcases validator_node_idx o st with h | ⟨h, hlen⟩
    · exact h
    · omega

/-- C10 witness: on a concrete oracle, the linear run starts its single task
exactly once, and the graph validator advances past a concrete in-range
state. -/
theorem C10_witness :
    execStarts (agentRun 20 3 oC1 "q").events = (plan_tasks oC1 "q").map Task.id ∧
    (validator_node oC1 ⟨[⟨1, "t1", false⟩], 0, []⟩).1.current_task_idx = 0 + 1 :=
  ⟨(C10_single_execution 20 3 oC1 "q").1,
   (C10_single_execution 20 3 oC1 "q").2.2.2 ⟨[⟨1, "t1", false⟩], 0, []⟩ (by decide)⟩

end Dexter
